import Mathlib

/-!
Shallow embedding of two cocos-engine source files:

* the SubContextView component (WeChat open-data-context viewport mirror),
  and
* AssetLibrary (the asset registry facade).

JS numbers are modelled as rationals; external collaborators
(the global adapter, the scene graph, the loader pipeline, the frame
clock performance.now) are modelled as explicit parameters; calls into
external objects are recorded as effects.
-/

namespace Cocos

/-- A cc.Size value: a width/height pair of JS numbers.  Modelled from
the spec: the cc.Size class (cocos/core/math, outside this excerpt) is
a plain width/height record whose equals method is componentwise value
equality and whose set method copies both components. -/
structure Size where
  width : ℚ
  height : ℚ
  deriving DecidableEq, Repr

/-- The shared canvas of the open data context (width/height in pixels). -/
structure Canvas where
  width : ℚ
  height : ℚ
  deriving DecidableEq, Repr

/-- The component's ImageAsset: only its width/height are observable here. -/
structure ImageAsset where
  width : ℚ
  height : ℚ
  deriving DecidableEq, Repr

/-- Node event types used by the component (Node.EventType). -/
inductive NodeEventType
  | transformChanged
  | sizeChanged
  deriving DecidableEq, Repr

/-- Handlers that the component registers on its node. -/
inductive Handler
  | updateSubContextViewHandler
  deriving DecidableEq, Repr

/-- Calls into external objects made by SubContextView, recorded as effects. -/
inductive Effect
  | imageReset (canvasWidth canvasHeight : ℚ)
  | textureCreate (width height : ℚ)
  | uploadData
  | postMessageViewport (x y width height : ℚ)
  | nodeOn (event : NodeEventType) (handler : Handler)
  | nodeOff (event : NodeEventType) (handler : Handler)
  | setSpriteFrameTexture
  deriving DecidableEq, Repr

/-- Whether an effect is a postMessage to the open data context. -/
def Effect.isPostMessage : Effect → Bool
  | .postMessageViewport _ _ _ _ => true
  | _ => false

/-- Whether an effect is a texture uploadData call. -/
def Effect.isUploadData : Effect → Bool
  | .uploadData => true
  | _ => false

namespace SubContextView

/-- The mutable fields of a SubContextView instance.  The open data
context is modelled by its shared canvas (none when absent); the
content node's UITransform width/height are carried here because
updateSubContextView mutates them. -/
structure SCVState where
  fps : ℚ
  updatedTime : ℚ
  updateInterval : ℚ
  designResolutionSize : Size
  openDataContext : Option Canvas
  imageAsset : Option ImageAsset
  contentWidth : ℚ
  contentHeight : ℚ
  enabled : Bool
  deriving DecidableEq, Repr

/-- The constructor together with the field initializers
(fps 60, updateInterval 0, designResolutionSize 640x960, a fresh
ImageAsset, no open data context); now is the value of the external
clock performance.now() at construction time. -/
def SCVState.initial (now : ℚ) : SCVState where
  fps := 60
  updatedTime := now
  updateInterval := 0
  designResolutionSize := ⟨640, 960⟩
  openDataContext := none
  imageAsset := some ⟨0, 0⟩
  contentWidth := 0
  contentHeight := 0
  enabled := true

/-- The designResolutionSize setter: bail out unless running in the
editor and the assigned value differs from the stored one; otherwise
copy the value into the stored Size (Size.set copies both components). -/
def setDesignResolutionSize (editor : Bool) (st : SCVState) (value : Size) : SCVState :=
  if !editor || value = st.designResolutionSize then st
  else { st with designResolutionSize := value }

/-- The fps setter: bail out when the stored fps already equals the
assigned value; otherwise store it and recompute updateInterval. -/
def setFps (st : SCVState) (value : ℚ) : SCVState :=
  if st.fps = value then st
  else { st with fps := value, updateInterval := 1000 / value }

/-- The private updateSubContextTexture method: bail out when the image
asset or the open data context is missing or the image is empty;
otherwise reset the image from the shared canvas (which makes its
dimensions those of the canvas), recreate the texture if the canvas
outgrew the image, and upload the canvas data to the texture. -/
def updateSubContextTexture (st : SCVState) : SCVState × List Effect :=
  match st.imageAsset, st.openDataContext with
  | some img, some sharedCanvas =>
    if img.width ≤ 0 ∨ img.height ≤ 0 then (st, [])
    else
      let img1 : ImageAsset := ⟨sharedCanvas.width, sharedCanvas.height⟩
      let createEffects :=
        if sharedCanvas.width > img1.width ∨ sharedCanvas.height > img1.height then
          [Effect.textureCreate sharedCanvas.width sharedCanvas.height]
        else []
      ({ st with imageAsset := some img1 },
        Effect.imageReset sharedCanvas.width sharedCanvas.height ::
          (createEffects ++ [Effect.uploadData]))
  | _, _ => (st, [])

/-- The result of one update call: the new state, the external calls
made, and whether updateSubContextTexture was invoked. -/
structure UpdateOut where
  state : SCVState
  effects : List Effect
  texInvoked : Bool
  deriving DecidableEq, Repr

/-- The public update method.  dt is the frame delta (none models a
manual call with dt === undefined); now is the value of the external
clock performance.now() at the time of the call. -/
def update (st : SCVState) (now : ℚ) (dt : Option ℚ) : UpdateOut :=
  match dt with
  | none =>
    let r := updateSubContextTexture st
    ⟨r.1, r.2, true⟩
  | some _ =>
    let deltaTime := now - st.updatedTime
    if deltaTime ≥ st.updateInterval then
      let st1 := { st with updatedTime := st.updatedTime + st.updateInterval }
      let r := updateSubContextTexture st1
      ⟨r.1, r.2, true⟩
    else ⟨st, [], false⟩

/-- External data read by updateSubContextView: presence of the global
adapter's getSystemInfoSync, the system screen size, the node's
UITransform size, the content's world bounding box, and the view's
visible size. -/
structure ViewEnv where
  adapterHasGetSystemInfoSync : Bool
  screenWidth : ℚ
  screenHeight : ℚ
  nodeWidth : ℚ
  nodeHeight : ℚ
  boxX : ℚ
  boxY : ℚ
  boxWidth : ℚ
  boxHeight : ℚ
  visibleWidth : ℚ
  visibleHeight : ℚ
  deriving DecidableEq, Repr

/-- The private updateSubContextView method: bail out unless the open
data context and the adapter's getSystemInfoSync are present; otherwise
rescale the content node with the SHOW_ALL policy and post one viewport
message to the open data context. -/
def updateSubContextView (env : ViewEnv) (st : SCVState) : SCVState × List Effect :=
  if !(st.openDataContext.isSome && env.adapterHasGetSystemInfoSync) then (st, [])
  else
    let scaleX := env.nodeWidth / st.contentWidth
    let scaleY := env.nodeHeight / st.contentHeight
    let scale := if scaleX > scaleY then scaleY else scaleX
    let st1 := { st with contentWidth := st.contentWidth * scale,
                         contentHeight := st.contentHeight * scale }
    let x := env.screenWidth * (env.boxX / env.visibleWidth)
    let y := env.screenHeight * (env.boxY / env.visibleHeight)
    let width := env.screenWidth * (env.boxWidth / env.visibleWidth)
    let height := env.screenHeight * (env.boxHeight / env.visibleHeight)
    (st1, [Effect.postMessageViewport x y width height])

/-- The private registerNodeEvent method: it subscribes
updateSubContextView to the node's TRANSFORM_CHANGED and SIZE_CHANGED
events. -/
def registerNodeEvent : List Effect :=
  [Effect.nodeOn .transformChanged .updateSubContextViewHandler,
   Effect.nodeOn .sizeChanged .updateSubContextViewHandler]

/-- The private unregisterNodeEvent method: it unsubscribes
updateSubContextView from both node events. -/
def unregisterNodeEvent : List Effect :=
  [Effect.nodeOff .transformChanged .updateSubContextViewHandler,
   Effect.nodeOff .sizeChanged .updateSubContextViewHandler]

/-- The global adapter as seen by onLoad: whether getOpenDataContext is
available, and the shared canvas of the returned open data context. -/
structure Adapter where
  hasGetOpenDataContext : Bool
  openDataCanvas : Canvas
  deriving DecidableEq, Repr

/-- The private initSharedCanvas method: size the shared canvas to the
design resolution. -/
def initSharedCanvas (st : SCVState) : SCVState :=
  match st.openDataContext with
  | some _ =>
    let c : Canvas := ⟨st.designResolutionSize.width, st.designResolutionSize.height⟩
    { st with openDataContext := some c }
  | none => st

/-- The private initContentNode method: reset the image from the shared
canvas, create its texture at the canvas size, and point the sprite
frame at that texture. -/
def initContentNode (st : SCVState) : SCVState × List Effect :=
  match st.openDataContext with
  | some sharedCanvas =>
    ({ st with imageAsset := some ⟨sharedCanvas.width, sharedCanvas.height⟩ },
     [Effect.imageReset sharedCanvas.width sharedCanvas.height,
      Effect.textureCreate sharedCanvas.width sharedCanvas.height,
      Effect.setSpriteFrameTexture])
  | none => (st, [])

/-- The onLoad callback: when the adapter exposes getOpenDataContext,
compute updateInterval from fps, grab the context, initialize the
shared canvas and the content node and push one viewport update;
otherwise disable the component. -/
def onLoad (adapter : Adapter) (env : ViewEnv) (st : SCVState) : SCVState × List Effect :=
  if adapter.hasGetOpenDataContext then
    let st1 := { st with updateInterval := 1000 / st.fps,
                         openDataContext := some adapter.openDataCanvas }
    let st2 := initSharedCanvas st1
    let r3 := initContentNode st2
    let r4 := updateSubContextView env r3.1
    (r4.1, r3.2 ++ r4.2)
  else ({ st with enabled := false }, [])

/-- Run a sequence of engine-driven update calls; each step supplies the
clock value now and the frame delta dt.  Returns the final state, the
concatenated effects, and how many times updateSubContextTexture was
invoked. -/
def runUpdates (st : SCVState) : List (ℚ × ℚ) → SCVState × List Effect × Nat
  | [] => (st, [], 0)
  | (now, dt) :: rest =>
    let out := update st now (some dt)
    let r := runUpdates out.state rest
    (r.1, out.effects ++ r.2.1, (if out.texInvoked then 1 else 0) + r.2.2)

end SubContextView

/-- JS String.prototype.split with a single-character separator:
splitting the empty string yields one empty segment, and a separator at
either end yields an empty segment there. -/
def jsSplit (sep : Char) : List Char → List (List Char)
  | [] => [[]]
  | c :: cs =>
    if c = sep then [] :: jsSplit sep cs
    else
      match jsSplit sep cs with
      | [] => [[c]]
      | h :: t => (c :: h) :: t

/-- JS Array.prototype.join with a single-character separator. -/
def jsJoin (sep : Char) : List (List Char) → List Char
  | [] => []
  | [l] => l
  | l :: ls => l ++ sep :: jsJoin sep ls

/-- The characters that JS encodeURIComponent leaves unescaped: ASCII
letters and digits together with hyphen, underscore, dot, bang, tilde,
star, apostrophe and parentheses. -/
def isURIUnreserved (c : Char) : Bool :=
  c.isAlphanum || c = '-' || c = '_' || c = '.' || c = '!' || c = '~' ||
    c = '*' || c = Char.ofNat 39 || c = '(' || c = ')'

/-- The UTF-8 bytes of a character, as natural numbers below 256. -/
def utf8Bytes (c : Char) : List Nat :=
  let n := c.toNat
  if n < 128 then [n]
  else if n < 2048 then [192 + n / 64, 128 + n % 64]
  else if n < 65536 then [224 + n / 4096, 128 + n / 64 % 64, 128 + n % 64]
  else [240 + n / 262144, 128 + n / 4096 % 64, 128 + n / 64 % 64, 128 + n % 64]

/-- The sixteen uppercase hexadecimal digits. -/
def hexUpperChars : List Char :=
  ['0', '1', '2', '3', '4', '5', '6', '7', '8', '9', 'A', 'B', 'C', 'D', 'E', 'F']

/-- The uppercase hexadecimal digit of n taken mod 16. -/
def hexDigitChar (n : Nat) : Char := hexUpperChars.getD (n % 16) '0'

/-- The percent-escape of one byte, e.g. byte 32 becomes %20. -/
def percentEncodeByte (b : Nat) : List Char :=
  ['%', hexDigitChar (b / 16), hexDigitChar (b % 16)]

/-- The action of the JS builtin encodeURIComponent on one character:
unreserved characters stay, all others become percent-escaped UTF-8
bytes. -/
def encodeURIComponentChar (c : Char) : List Char :=
  if isURIUnreserved c then [c] else ((utf8Bytes c).map percentEncodeByte).flatten

/-- The JS builtin encodeURIComponent. -/
def encodeURIComponent (s : String) : String :=
  String.mk ((s.data.map encodeURIComponentChar).flatten)

/-- First-match lookup in an association list; the JS string-keyed maps
are modelled with the most recent assignment at the head of the list. -/
def lookupKey {α : Type} : List (String × α) → String → Option α
  | [], _ => none
  | (k, v) :: rest, key => if k = key then some v else lookupKey rest key

namespace AssetLibrary

/-- Module-level configuration of asset-library.ts: the BUILD constant
from internal:constants, the two URL bases set by init, and the
external decodeUuid helper from utils/decode-uuid (a collaborator
outside this excerpt, kept abstract). -/
structure LibConfig where
  build : Bool
  libraryBase : String
  rawAssetsBase : String
  decodeUuid : String → String

/-- AssetLibrary.getLibUrlNoExt translated statement by statement:
decode the uuid when BUILD holds, percent-encode its '@'-separated
segments and rejoin them, pick the base, and concatenate base, the
first two characters of the uuid, a slash and the uuid. -/
def getLibUrlNoExt (cfg : LibConfig) (uuid : String) (inRawAssetsDir : Bool) : String :=
  let uuid1 := if cfg.build then cfg.decodeUuid uuid else uuid
  let uuids := (jsSplit '@' uuid1.data).map (fun name => (encodeURIComponent (String.mk name)).data)
  let uuid2 := jsJoin '@' uuids
  let base := if cfg.build && inRawAssetsDir then cfg.rawAssetsBase ++ "assets/" else cfg.libraryBase
  base ++ String.mk (uuid2.take 2) ++ "/" ++ String.mk uuid2

/-- The processed uuid exactly as the claim describes it: each
'@'-separated segment percent-encoded by encodeURIComponent and
rejoined with '@'.  The build-time uuid decoding that precedes this
processing is applied by the caller. -/
def processedUuid (u : String) : List Char :=
  jsJoin '@' ((jsSplit '@' u.data).map (fun seg => (encodeURIComponent (String.mk seg)).data))

/-- getLibUrlNoExt as the claim states it: base, then the first two
characters of the processed uuid, then a slash, then the processed
uuid; base is rawAssetsBase plus the assets folder when built with
inRawAssetsDir true and libraryBase otherwise. -/
def getLibUrlNoExtSpec (cfg : LibConfig) (uuid : String) (inRawAssetsDir : Bool) : String :=
  let p := processedUuid (if cfg.build then cfg.decodeUuid uuid else uuid)
  let base := if cfg.build && inRawAssetsDir then cfg.rawAssetsBase ++ "assets/" else cfg.libraryBase
  base ++ String.mk (p.take 2) ++ "/" ++ String.mk p

/-- A registered engine class: its id and whether isChildClassOf would
relate it to the Asset base class. -/
structure CCClass where
  id : String
  isChildClassOfAsset : Bool
  deriving DecidableEq, Repr

/-- The RawAssetEntry records stored in the uuid-to-raw-asset map. -/
structure RawAssetEntry where
  url : String
  type : CCClass
  deriving DecidableEq, Repr

/-- The result object filled by getAssetInfoInRuntime: the resolved url
and the raw-asset mark. -/
structure AssetInfo where
  url : String
  raw : Bool
  deriving DecidableEq, Repr

/-- The private AssetLibrary.getAssetInfoInRuntime method: when the
uuid maps to a raw-asset entry whose type is not a child class of
Asset, answer the backward-compatible raw url, otherwise the imported
JSON url built from getLibUrlNoExt (inRawAssetsDir left undefined,
hence false). -/
def getAssetInfoInRuntime (cfg : LibConfig) (uuidToRawAsset : List (String × RawAssetEntry)) (uuid : String) : AssetInfo :=
  match lookupKey uuidToRawAsset uuid with
  | some info =>
    if !info.type.isChildClassOfAsset then
      ⟨cfg.rawAssetsBase ++ info.url, true⟩
    else
      ⟨getLibUrlNoExt cfg uuid false ++ ".json", false⟩
  | none => ⟨getLibUrlNoExt cfg uuid false ++ ".json", false⟩

/-- What AssetLibrary.queryAssetInfo does with its callback: either the
dispatch to the editor-only query path, or exactly one runtime callback
invocation carrying (error, url, raw). -/
inductive QueryResult
  | editorQuery
  | runtimeCallback (error : Option String) (url : String) (raw : Bool)
  deriving Repr

/-- AssetLibrary.queryAssetInfo: dispatch to the editor path when in
the editor and not under test, otherwise call the callback once with a
null error and the runtime asset info. -/
def queryAssetInfo (editor test : Bool) (cfg : LibConfig) (uuidToRawAsset : List (String × RawAssetEntry)) (uuid : String) : QueryResult :=
  if editor && !test then .editorQuery
  else
    let info := getAssetInfoInRuntime cfg uuidToRawAsset uuid
    .runtimeCallback none info.url info.raw

/-- A JS value passed as the uuid argument of loadAsset: either a
string or some non-string value. -/
inductive JSVal
  | str (s : String)
  | notString
  deriving DecidableEq, Repr

/-- The load item handed to the external loader pipeline; assets are
identified by numeric ids in this model. -/
structure LoadItem where
  uuid : String
  type : String
  existingAsset : Option Nat
  deriving DecidableEq, Repr

/-- The options argument of loadAsset (only existingAsset matters to
the translated code path). -/
structure LoadOptions where
  existingAsset : Option Nat
  deriving DecidableEq, Repr

/-- The first phase of AssetLibrary.loadAsset: either schedule the
callback on the next tick with an Error and a null asset (the loader is
then never invoked), or invoke the external loader with the built
item. -/
inductive LoadAssetStep
  | nextTickError (message : String)
  | invokeLoader (item : LoadItem)
  deriving DecidableEq, Repr

/-- AssetLibrary.loadAsset up to the external loader call: reject
non-string uuids via callInNextTick, otherwise build the load item
(copying options.existingAsset when truthy) and hand it to
legacyCC.loader.load. -/
def loadAsset (uuid : JSVal) (options : Option LoadOptions) : LoadAssetStep :=
  match uuid with
  | .notString => .nextTickError "[AssetLibrary] uuid must be string"
  | .str s =>
    let item : LoadItem := { uuid := s, type := "uuid", existingAsset := none }
    let item :=
      match options with
      | some o =>
        match o.existingAsset with
        | some a => { item with existingAsset := some a }
        | none => item
      | none => item
    .invokeLoader item

/-- The outcome the external loader reports to loadAsset's inner
callback: a possibly-null error (some means a truthy Error carrying a
message) and a possibly-missing asset. -/
structure LoaderResult where
  error : Option String
  asset : Option Nat
  deriving DecidableEq, Repr

/-- The second phase of AssetLibrary.loadAsset: what its inner loader
callback passes on to the user callback, given what the loader
reported.  On a truthy error or a missing asset the error is replaced
by a prefixed Error; otherwise the loader's falsy error and the asset
go through unchanged. -/
def loadAssetCallbackArgs (res : LoaderResult) : Option String × Option Nat :=
  if res.error.isSome || res.asset.isNone then
    (some ("[AssetLibrary] loading JSON or dependencies failed: " ++
      (match res.error with | some m => m | none => "Unknown error")), res.asset)
  else
    (res.error, res.asset)

/-- The raw-asset description found in options.rawAssets: the url, the
type id, and the optional sub-asset flag stored at index 2. -/
structure RawAssetInfo where
  url : String
  typeId : String
  subAssetFlag : Option Nat
  deriving DecidableEq, Repr

/-- One record added to an asset table by AssetTable.add. -/
structure TableEntry where
  path : String
  uuid : String
  type : CCClass
  isMainAsset : Bool
  deriving DecidableEq, Repr

/-- The state mutated by init's raw-assets loop: the uuid-to-raw-asset
map and the per-mount asset tables. -/
structure InitState where
  uuidToRawAsset : List (String × RawAssetEntry)
  assetTables : List (String × List TableEntry)
  deriving DecidableEq, Repr

/-- Create the mount's table when missing, then append one entry to it
(AssetTable.add records the call). -/
def tableAdd (tables : List (String × List TableEntry)) (mount : String) (e : TableEntry) : List (String × List TableEntry) :=
  match tables with
  | [] => [(mount, [e])]
  | (m, es) :: rest =>
    if m = mount then (m, es ++ [e]) :: rest else (m, es) :: tableAdd rest mount e

/-- The entries of the mount's asset table (empty when the table does
not exist). -/
def tableEntries (tables : List (String × List TableEntry)) (mount : String) : List TableEntry :=
  (lookupKey tables mount).getD []

/-- One iteration of init's raw-assets loop for the entry (mountPoint,
uuid, info): when the type id does not resolve through getClassById the
entry is skipped (only an error is logged); otherwise a RawAssetEntry
with the mounted url is stored under the uuid and the entry is added to
the mount point's asset table with the main-asset mark. -/
def processRawAssetEntry (classById : String → Option CCClass) (st : InitState) (mountPoint uuid : String) (info : RawAssetInfo) : InitState :=
  match classById info.typeId with
  | none => st
  | some type =>
    let entry : RawAssetEntry := ⟨mountPoint ++ "/" ++ info.url, type⟩
    let st1 := { st with uuidToRawAsset := (uuid, entry) :: st.uuidToRawAsset }
    let isSubAsset := info.subAssetFlag = some 1
    { st1 with assetTables := tableAdd st1.assetTables mountPoint ⟨info.url, uuid, type, !isSubAsset⟩ }

/-- Init's raw-assets loop over the flattened (mountPoint, uuid, info)
entries in iteration order. -/
def initRawAssets (classById : String → Option CCClass) (st : InitState) : List (String × String × RawAssetInfo) → InitState
  | [] => st
  | (mount, uuid, info) :: rest =>
    initRawAssets classById (processRawAssetEntry classById st mount uuid info) rest

/-- AssetLibrary.getAssetByUuid: the JS expression reads the uuid-to-
asset cache and coerces a falsy entry to null; the cache itself is
returned unchanged.  Stored values are some for a truthy cached asset
and none for a falsy stored value. -/
def getAssetByUuid (uuidToAsset : List (String × Option Nat)) (uuid : String) : Option Nat × List (String × Option Nat) :=
  (match lookupKey uuidToAsset uuid with
   | some v => match v with | some a => some a | none => none
   | none => none,
   uuidToAsset)

end AssetLibrary

namespace SubContextView

/-- The updateSubContextTexture method never touches the time-keeping
field. -/
theorem updateSubContextTexture_updatedTime (st : SCVState) :
    (updateSubContextTexture st).1.updatedTime = st.updatedTime := by
  unfold updateSubContextTexture
  cases st.imageAsset <;> cases st.openDataContext <;> simp
  split <;> simp

/-- The updateSubContextTexture method never posts a message. -/
theorem updateSubContextTexture_no_postMessage (st : SCVState) :
    ((updateSubContextTexture st).2).countP Effect.isPostMessage = 0 := by
  unfold updateSubContextTexture
  cases st.imageAsset <;> cases st.openDataContext <;> simp
  split
  · simp
  · simp [Effect.isPostMessage]

/-- C1: for an engine-driven update call (dt defined), the texture copy
(updateSubContextTexture) runs exactly when now minus updatedTime has
reached updateInterval; when it runs, updatedTime advances by exactly
updateInterval (fixed-step accumulation), and otherwise updatedTime is
unchanged. -/
theorem update_frame_gate (st : SCVState) (now dt : ℚ) :
    ((update st now (some dt)).texInvoked = true ↔
      now - st.updatedTime ≥ st.updateInterval) ∧
    ((update st now (some dt)).texInvoked = true →
      (update st now (some dt)).state.updatedTime = st.updatedTime + st.updateInterval) ∧
    ((update st now (some dt)).texInvoked = false →
      (update st now (some dt)).state.updatedTime = st.updatedTime) := by
  by_cases h : now - st.updatedTime ≥ st.updateInterval
  · simp [update, h, updateSubContextTexture_updatedTime]
  · simp [update, h]

/-- Witness for C1 at a concrete state: with updatedTime 0 and
updateInterval 20, an update at clock value 20 fires and accumulates
updatedTime to exactly 20. -/
theorem update_frame_gate_witness :
    (update ⟨60, 0, 20, ⟨640, 960⟩, some ⟨640, 960⟩, some ⟨640, 960⟩, 0, 0, true⟩
        20 (some 16)).state.updatedTime = 0 + 20 :=
  (update_frame_gate ⟨60, 0, 20, ⟨640, 960⟩, some ⟨640, 960⟩, some ⟨640, 960⟩, 0, 0, true⟩
      20 16).2.1 (by norm_num [update, updateSubContextTexture])

/-- C10: a manual update call (dt undefined) invokes the texture copy
unconditionally, bypassing the fps interval gate, and leaves
updatedTime unchanged. -/
theorem update_manual_call (st : SCVState) (now : ℚ) :
    (update st now none).texInvoked = true ∧
    (update st now none).state.updatedTime = st.updatedTime := by
  exact ⟨rfl, by simpa [update] using updateSubContextTexture_updatedTime st⟩

/-- C9: assigning a new fps value stores it and recomputes
updateInterval as 1000 divided by the value; re-assigning the current
fps changes neither field, so the initial state (fps 60, updateInterval
still 0 before onLoad) is unchanged when fps is re-assigned its
default. -/
theorem setFps_behavior :
    (∀ st v, st.fps ≠ v → setFps st v = { st with fps := v, updateInterval := 1000 / v }) ∧
    (∀ st v, st.fps = v → setFps st v = st) ∧
    (∀ now, (SCVState.initial now).fps = 60 ∧ (SCVState.initial now).updateInterval = 0 ∧
      setFps (SCVState.initial now) 60 = SCVState.initial now) := by
  refine ⟨?_, ?_, ?_⟩
  · intro st v h; simp [setFps, h]
  · intro st v h; simp [setFps, h]
  · intro now
    exact ⟨rfl, rfl, by simp [setFps, SCVState.initial]⟩

/-- Witness for C9: setting fps to 30 on a fresh instance stores 30 and
the interval 1000 / 30. -/
theorem setFps_behavior_witness :
    setFps (SCVState.initial 5) 30 =
      { SCVState.initial 5 with fps := 30, updateInterval := 1000 / 30 } :=
  setFps_behavior.1 (SCVState.initial 5) 30 (by norm_num [SCVState.initial])

/-- C8: outside the editor every assignment to designResolutionSize is
a no-op; inside the editor assigning the current value is a no-op and
only an unequal value updates the stored size. -/
theorem setDesignResolutionSize_gating :
    (∀ st v, setDesignResolutionSize false st v = st) ∧
    (∀ st v, v = st.designResolutionSize → setDesignResolutionSize true st v = st) ∧
    (∀ st v, v ≠ st.designResolutionSize →
      setDesignResolutionSize true st v = { st with designResolutionSize := v }) := by
  refine ⟨?_, ?_, ?_⟩ <;> intro st v
  · simp [setDesignResolutionSize]
  · intro h; simp [setDesignResolutionSize, h]
  · intro h; simp [setDesignResolutionSize, h]

/-- Witness for C8: in the editor, assigning 100 by 200 over the
default 640 by 960 stores the new size. -/
theorem setDesignResolutionSize_gating_witness :
    setDesignResolutionSize true (SCVState.initial 0) ⟨100, 200⟩ =
      { SCVState.initial 0 with designResolutionSize := ⟨100, 200⟩ } :=
  setDesignResolutionSize_gating.2.2 (SCVState.initial 0) ⟨100, 200⟩
    (by norm_num [SCVState.initial, Size.mk.injEq])

/-- C2 counterexample: a concrete run of three engine-driven updates in
which the interval gate fires every time performs three texture copies
(three uploadData calls) and issues zero postMessage calls, refuting
the claim that postMessage is among the operations executed by the
periodic update loop. -/
theorem update_loop_posts_no_message_cx :
    (runUpdates ⟨60, 0, 20, ⟨640, 960⟩, some ⟨640, 960⟩, some ⟨640, 960⟩, 0, 0, true⟩
        [(20, 16), (40, 16), (60, 16)]).2.2 = 3 ∧
    ((runUpdates ⟨60, 0, 20, ⟨640, 960⟩, some ⟨640, 960⟩, some ⟨640, 960⟩, 0, 0, true⟩
        [(20, 16), (40, 16), (60, 16)]).2.1).countP Effect.isUploadData = 3 ∧
    ((runUpdates ⟨60, 0, 20, ⟨640, 960⟩, some ⟨640, 960⟩, some ⟨640, 960⟩, 0, 0, true⟩
        [(20, 16), (40, 16), (60, 16)]).2.1).countP Effect.isPostMessage = 0 := by
  norm_num [runUpdates, update, updateSubContextTexture,
    Effect.isUploadData, Effect.isPostMessage]

/-- C2 amended: the periodic, frame-clock-driven update loop never
posts a message to the open data context (it performs texture copies
only); the postMessage call lives in updateSubContextView, which posts
exactly one viewport message whenever the open data context and the
adapter's getSystemInfoSync are available, and which registerNodeEvent
subscribes to the node's TRANSFORM_CHANGED and SIZE_CHANGED events. -/
theorem postMessage_not_in_update_loop :
    (∀ st now dt, ((update st now dt).effects).countP Effect.isPostMessage = 0) ∧
    (∀ env st, ((updateSubContextView env st).2).countP Effect.isPostMessage =
      if st.openDataContext.isSome && env.adapterHasGetSystemInfoSync then 1 else 0) ∧
    registerNodeEvent =
      [Effect.nodeOn .transformChanged .updateSubContextViewHandler,
       Effect.nodeOn .sizeChanged .updateSubContextViewHandler] := by
  refine ⟨?_, ?_, rfl⟩
  · intro st now dt
    cases dt with
    | none => simpa [update] using updateSubContextTexture_no_postMessage st
    | some d =>
      by_cases h : now - st.updatedTime ≥ st.updateInterval
      · simpa [update, h] using updateSubContextTexture_no_postMessage
          { st with updatedTime := st.updatedTime + st.updateInterval }
      · simp [update, h]
  · intro env st
    by_cases h : (st.openDataContext.isSome && env.adapterHasGetSystemInfoSync) = true
    · simp [updateSubContextView, h, Effect.isPostMessage]
    · simp [updateSubContextView, h]

end SubContextView

namespace AssetLibrary

/-- Helper: adding to a mount's table appends one entry to that mount's
entries (creating the table when missing). -/
theorem tableEntries_tableAdd (tables : List (String × List TableEntry)) (mount : String) (e : TableEntry) :
    tableEntries (tableAdd tables mount e) mount = tableEntries tables mount ++ [e] := by
  induction tables with
  | nil => simp [tableAdd, tableEntries, lookupKey]
  | cons p rest ih =>
    obtain ⟨m, es⟩ := p
    by_cases h : m = mount
    · simp [tableAdd, tableEntries, lookupKey, h]
    · simp [tableAdd, tableEntries, lookupKey, h] at ih ⊢
      exact ih

/-- Helper: an entry whose type id does not resolve leaves the init
state untouched. -/
theorem processRawAssetEntry_none (classById : String → Option CCClass) (st : InitState) (mount uuid : String) (info : RawAssetInfo) (h : classById info.typeId = none) :
    processRawAssetEntry classById st mount uuid info = st := by
  unfold processRawAssetEntry
  rw [h]

/-- Helper: building a string from a character list is the identity on
the underlying data. -/
theorem stringMk_data (l : List Char) : (String.mk l).data = l := rfl

/-- Helper: hexDigitChar always produces one of the sixteen uppercase
hexadecimal digits. -/
theorem hexDigitChar_mem (n : Nat) : hexDigitChar n ∈ hexUpperChars := by
  have h : n % 16 < 16 := Nat.mod_lt _ (by norm_num)
  unfold hexDigitChar
  generalize n % 16 = k at h ⊢
  interval_cases k <;> decide

/-- Helper: a percent-escape consists of the percent sign and uppercase
hexadecimal digits. -/
theorem mem_percentEncodeByte (c : Char) (b : Nat) (h : c ∈ percentEncodeByte b) :
    c = '%' ∨ c ∈ hexUpperChars := by
  simp [percentEncodeByte] at h
  rcases h with h | h | h
  · exact Or.inl h
  · subst h
    exact Or.inr (hexDigitChar_mem _)
  · subst h
    exact Or.inr (hexDigitChar_mem _)

/-- Helper: encodeURIComponent maps a character to itself, the percent
sign, or uppercase hexadecimal digits. -/
theorem mem_encodeURIComponentChar (c c0 : Char) (h : c ∈ encodeURIComponentChar c0) :
    c = c0 ∨ c = '%' ∨ c ∈ hexUpperChars := by
  unfold encodeURIComponentChar at h
  split at h
  · simp at h
    exact Or.inl h
  · simp only [List.mem_flatten] at h
    obtain ⟨l, hl, hc⟩ := h
    simp only [List.mem_map] at hl
    obtain ⟨b, _, rfl⟩ := hl
    exact Or.inr (mem_percentEncodeByte c b hc)

/-- Helper: the JS split never yields an empty segment list. -/
theorem jsSplit_ne_nil (sep : Char) (s : List Char) : jsSplit sep s ≠ [] := by
  cases s with
  | nil => simp [jsSplit]
  | cons c cs =>
    unfold jsSplit
    split
    · simp
    · split <;> simp

/-- Helper: every character of a segment produced by the JS split comes
from the split string. -/
theorem mem_jsSplit (sep c : Char) : ∀ s l : List Char, l ∈ jsSplit sep s → c ∈ l → c ∈ s := by
  intro s
  induction s with
  | nil =>
    intro l hl hc
    simp [jsSplit] at hl
    subst hl
    simp at hc
  | cons a as ih =>
    intro l hl hc
    unfold jsSplit at hl
    by_cases ha : a = sep
    · rw [if_pos ha] at hl
      rcases List.mem_cons.mp hl with rfl | hl'
      · simp at hc
      · exact List.mem_cons_of_mem a (ih l hl' hc)
    · rw [if_neg ha] at hl
      rcases hr : jsSplit sep as with _ | ⟨h1, t⟩
      · exact absurd hr (jsSplit_ne_nil sep as)
      · rw [hr] at hl
        rcases List.mem_cons.mp hl with rfl | hl'
        · rcases List.mem_cons.mp hc with rfl | hc'
          · exact List.mem_cons_self c as
          · exact List.mem_cons_of_mem a (ih h1 (hr ▸ List.mem_cons_self h1 t) hc')
        · exact List.mem_cons_of_mem a (ih l (hr ▸ List.mem_cons_of_mem h1 hl') hc)

/-- Helper: every character of a JS join is the separator or comes from
one of the joined segments. -/
theorem mem_jsJoin (sep c : Char) :
    ∀ L : List (List Char), c ∈ jsJoin sep L → c = sep ∨ ∃ l ∈ L, c ∈ l := by
  intro L
  induction L with
  | nil =>
    intro h
    simp [jsJoin] at h
  | cons l ls ih =>
    intro h
    cases ls with
    | nil =>
      right
      exact ⟨l, List.mem_cons_self l [], by simpa [jsJoin] using h⟩
    | cons l2 ls2 =>
      have hj : jsJoin sep (l :: l2 :: ls2) = l ++ sep :: jsJoin sep (l2 :: ls2) := rfl
      rw [hj] at h
      rcases List.mem_append.mp h with h1 | h1
      · exact Or.inr ⟨l, List.mem_cons_self l _, h1⟩
      · rcases List.mem_cons.mp h1 with rfl | h2
        · exact Or.inl rfl
        · rcases ih h2 with h3 | ⟨l', hl', hc'⟩
          · exact Or.inl h3
          · exact Or.inr ⟨l', List.mem_cons_of_mem l hl', hc'⟩

/-- Helper: the processed uuid (split at '@', segments percent-encoded,
rejoined) contains no dot when the decoded uuid contains none. -/
theorem dot_not_mem_processed (u1 : List Char) (h1 : '.' ∉ u1) :
    '.' ∉ jsJoin '@' ((jsSplit '@' u1).map
      (fun seg => (encodeURIComponent (String.mk seg)).data)) := by
  intro hmem
  rcases mem_jsJoin '@' '.' _ hmem with h | ⟨l, hl, hc⟩
  · exact absurd h (by decide)
  · simp only [List.mem_map] at hl
    obtain ⟨seg, hseg, rfl⟩ := hl
    have hc' : '.' ∈ (seg.map encodeURIComponentChar).flatten := hc
    rcases List.mem_flatten.mp hc' with ⟨l2, hl2, hc2⟩
    simp only [List.mem_map] at hl2
    obtain ⟨c0, hc0, rfl⟩ := hl2
    rcases mem_encodeURIComponentChar '.' c0 hc2 with rfl | h | h
    · exact h1 (mem_jsSplit '@' '.' u1 seg hseg hc0)
    · exact absurd h (by decide)
    · exact absurd h (by decide)

/-- C3: getLibUrlNoExt returns exactly the concatenation the claim
describes (base, first two characters of the processed uuid, a slash,
the processed uuid), and it appends no file extension: when neither the
decoded uuid nor the base contains a dot, the result contains none. -/
theorem getLibUrlNoExt_matches_spec (cfg : LibConfig) (uuid : String) (inRawAssetsDir : Bool) :
    getLibUrlNoExt cfg uuid inRawAssetsDir = getLibUrlNoExtSpec cfg uuid inRawAssetsDir ∧
    ('.' ∉ (if cfg.build then cfg.decodeUuid uuid else uuid).data →
      '.' ∉ ((if cfg.build && inRawAssetsDir then cfg.rawAssetsBase ++ "assets/"
              else cfg.libraryBase) : String).data →
      '.' ∉ (getLibUrlNoExt cfg uuid inRawAssetsDir).data) := by
  constructor
  · rfl
  · intro h1 h2 hmem
    unfold getLibUrlNoExt at hmem
    simp only [String.data_append, stringMk_data] at hmem
    rcases List.mem_append.mp hmem with hm | hm
    · rcases List.mem_append.mp hm with hm2 | hm2
      · rcases List.mem_append.mp hm2 with hm3 | hm3
        · exact h2 hm3
        · exact dot_not_mem_processed _ h1 (List.take_subset 2 _ hm3)
      · exact absurd hm2 (by decide)
    · exact dot_not_mem_processed _ h1 hm

/-- Witness for C3: with BUILD off and a library base without dots, the
url of the uuid ab@c d (whose space gets percent-encoded) carries no
dot and hence no extension. -/
theorem getLibUrlNoExt_matches_spec_witness :
    '.' ∉ (getLibUrlNoExt ⟨false, "lib/", "raw/", id⟩ "ab@c d" false).data :=
  (getLibUrlNoExt_matches_spec ⟨false, "lib/", "raw/", id⟩ "ab@c d" false).2
    (by decide) (by decide)

/-- C7: getAssetByUuid is a pure map lookup: the cache comes back
unchanged, a truthy cached entry is returned as is, and anything else
yields null. -/
theorem getAssetByUuid_pure_lookup (uuidToAsset : List (String × Option Nat)) (uuid : String) :
    (getAssetByUuid uuidToAsset uuid).2 = uuidToAsset ∧
    (∀ a, lookupKey uuidToAsset uuid = some (some a) →
      (getAssetByUuid uuidToAsset uuid).1 = some a) ∧
    ((∀ a, lookupKey uuidToAsset uuid ≠ some (some a)) →
      (getAssetByUuid uuidToAsset uuid).1 = none) := by
  refine ⟨rfl, ?_, ?_⟩
  · intro a h
    simp [getAssetByUuid, h]
  · intro h
    rcases hc : lookupKey uuidToAsset uuid with _ | v
    · simp [getAssetByUuid, hc]
    · rcases v with _ | a
      · simp [getAssetByUuid, hc]
      · exact absurd hc (h a)

/-- Witness for C7: looking up a cached asset returns it. -/
theorem getAssetByUuid_pure_lookup_witness :
    (getAssetByUuid [("u1", some 7)] "u1").1 = some 7 :=
  (getAssetByUuid_pure_lookup [("u1", some 7)] "u1").2.1 7 (by decide)

/-- C4: loadAsset reports failures only through its callback.  A
non-string uuid is rejected on the next tick with an Error and the
loader is never invoked; a string uuid reaches the loader with a
uuid-typed item; a truthy loader error or a missing asset is wrapped
into an Error with the documented message prefix; otherwise the falsy
loader error and the asset pass through unchanged. -/
theorem loadAsset_error_callbacks :
    (∀ options, loadAsset .notString options =
      .nextTickError "[AssetLibrary] uuid must be string") ∧
    (∀ options item, loadAsset .notString options ≠ .invokeLoader item) ∧
    (∀ s options, ∃ item, loadAsset (.str s) options = .invokeLoader item ∧
      item.uuid = s ∧ item.type = "uuid") ∧
    (∀ res : LoaderResult, (res.error.isSome || res.asset.isNone) = true →
      ∃ m, (loadAssetCallbackArgs res).1 =
        some ("[AssetLibrary] loading JSON or dependencies failed: " ++ m) ∧
        (loadAssetCallbackArgs res).2 = res.asset) ∧
    (∀ res : LoaderResult, res.error = none → res.asset.isSome = true →
      loadAssetCallbackArgs res = (none, res.asset)) := by
  refine ⟨fun _ => rfl, ?_, ?_, ?_, ?_⟩
  · intro options item h
    simp [loadAsset] at h
  · intro s options
    rcases options with _ | o
    · exact ⟨_, rfl, rfl, rfl⟩
    · rcases ho : o.existingAsset with _ | a
      · exact ⟨⟨s, "uuid", none⟩, by simp [loadAsset, ho], rfl, rfl⟩
      · exact ⟨⟨s, "uuid", some a⟩, by simp [loadAsset, ho], rfl, rfl⟩
  · intro res h
    refine ⟨match res.error with | some m => m | none => "Unknown error", ?_, ?_⟩ <;>
      simp [loadAssetCallbackArgs, h]
  · intro res he ha
    simp [loadAssetCallbackArgs, he, Option.isNone_iff_eq_none]
    rcases res with ⟨e, a⟩
    rcases a with _ | a
    · simp at ha
    · simp_all

/-- Witness for C4: a loader failure with message boom reaches the
callback wrapped in the prefixed Error with the asset untouched. -/
theorem loadAsset_error_callbacks_witness :
    ∃ m, (loadAssetCallbackArgs ⟨some "boom", none⟩).1 =
      some ("[AssetLibrary] loading JSON or dependencies failed: " ++ m) ∧
      (loadAssetCallbackArgs ⟨some "boom", none⟩).2 = none :=
  loadAsset_error_callbacks.2.2.2.1 ⟨some "boom", none⟩ (by decide)

/-- C5: in the runtime environment queryAssetInfo calls back exactly
once with a null error; a raw-asset entry whose type is not a child
class of Asset yields the prefixed raw url with raw true, and every
other uuid yields the imported JSON url with raw false. -/
theorem queryAssetInfo_runtime (test : Bool) (cfg : LibConfig) (uuidToRawAsset : List (String × RawAssetEntry)) (uuid : String) :
    (∃ url raw, queryAssetInfo false test cfg uuidToRawAsset uuid =
      .runtimeCallback none url raw) ∧
    (∀ e, lookupKey uuidToRawAsset uuid = some e → e.type.isChildClassOfAsset = false →
      queryAssetInfo false test cfg uuidToRawAsset uuid =
        .runtimeCallback none (cfg.rawAssetsBase ++ e.url) true) ∧
    ((∀ e, lookupKey uuidToRawAsset uuid = some e → e.type.isChildClassOfAsset = true) →
      queryAssetInfo false test cfg uuidToRawAsset uuid =
        .runtimeCallback none (getLibUrlNoExt cfg uuid false ++ ".json") false) := by
  refine ⟨⟨_, _, rfl⟩, ?_, ?_⟩
  · intro e he hc
    simp [queryAssetInfo, getAssetInfoInRuntime, he, hc]
  · intro h
    rcases he : lookupKey uuidToRawAsset uuid with _ | e
    · simp [queryAssetInfo, getAssetInfoInRuntime, he]
    · simp [queryAssetInfo, getAssetInfoInRuntime, he, h e he]

/-- Witness for C5: a backward-compatibility raw asset resolves to the
raw base plus its stored url with raw true. -/
theorem queryAssetInfo_runtime_witness :
    queryAssetInfo false false ⟨false, "lib/", "raw/", id⟩
        [("u1", ⟨"assets/a.png", ⟨"cc.RawAsset", false⟩⟩)] "u1" =
      .runtimeCallback none ("raw/" ++ "assets/a.png") true :=
  (queryAssetInfo_runtime false ⟨false, "lib/", "raw/", id⟩
      [("u1", ⟨"assets/a.png", ⟨"cc.RawAsset", false⟩⟩)] "u1").2.1
    ⟨"assets/a.png", ⟨"cc.RawAsset", false⟩⟩ (by decide) rfl

/-- C6: during init's raw-assets loop, an entry whose type id resolves
stores a RawAssetEntry with the mounted url under its uuid and appends
the entry to the mount point's asset table; an entry whose type id does
not resolve is skipped, and the loop goes on processing exactly the
resolvable entries. -/
theorem initRawAssets_entry_processing (classById : String → Option CCClass) :
    (∀ st mount uuid info ty, classById info.typeId = some ty →
      lookupKey (processRawAssetEntry classById st mount uuid info).uuidToRawAsset uuid =
        some ⟨mount ++ "/" ++ info.url, ty⟩ ∧
      tableEntries (processRawAssetEntry classById st mount uuid info).assetTables mount =
        tableEntries st.assetTables mount ++
          [⟨info.url, uuid, ty, !(info.subAssetFlag = some 1 : Bool)⟩]) ∧
    (∀ st mount uuid info, classById info.typeId = none →
      processRawAssetEntry classById st mount uuid info = st) ∧
    (∀ st entries, initRawAssets classById st entries =
      initRawAssets classById st
        (entries.filter (fun e => (classById e.2.2.typeId).isSome))) := by
  refine ⟨?_, processRawAssetEntry_none classById, ?_⟩
  · intro st mount uuid info ty h
    constructor
    · simp [processRawAssetEntry, h, lookupKey]
    · simp [processRawAssetEntry, h, tableEntries_tableAdd]
  · intro st entries
    induction entries generalizing st with
    | nil => rfl
    | cons e rest ih =>
      obtain ⟨mount, uuid, info⟩ := e
      rcases h : classById info.typeId with _ | ty
      · simp only [initRawAssets, List.filter_cons, h, Option.isSome_none,
          processRawAssetEntry_none classById st mount uuid info h]
        exact ih st
      · simp only [initRawAssets, List.filter_cons, h, Option.isSome_some]
        exact ih _

/-- Witness for C6: a resolvable texture entry lands in the raw-asset
map with the mounted url and in the mount's table as a main asset. -/
theorem initRawAssets_entry_processing_witness :
    lookupKey (processRawAssetEntry
        (fun id => if id = "cc.ImageAsset" then some ⟨"cc.ImageAsset", true⟩ else none)
        ⟨[], []⟩ "assets" "u1" ⟨"img.png", "cc.ImageAsset", none⟩).uuidToRawAsset "u1" =
      some ⟨"assets" ++ "/" ++ "img.png", ⟨"cc.ImageAsset", true⟩⟩ ∧
    tableEntries (processRawAssetEntry
        (fun id => if id = "cc.ImageAsset" then some ⟨"cc.ImageAsset", true⟩ else none)
        ⟨[], []⟩ "assets" "u1" ⟨"img.png", "cc.ImageAsset", none⟩).assetTables "assets" =
      tableEntries ([] : List (String × List TableEntry)) "assets" ++
        [⟨"img.png", "u1", ⟨"cc.ImageAsset", true⟩, !((none : Option Nat) = some 1 : Bool)⟩] :=
  (initRawAssets_entry_processing
      (fun id => if id = "cc.ImageAsset" then some ⟨"cc.ImageAsset", true⟩ else none)).1
    ⟨[], []⟩ "assets" "u1" ⟨"img.png", "cc.ImageAsset", none⟩ ⟨"cc.ImageAsset", true⟩
    (by simp)

end AssetLibrary

end Cocos
